import Mathlib

/-!
Shallow embedding of the voronoi-vivarium simulation engine
(src/state.rs, src/chemistry.rs, src/voronoi.rs).

Rust `f32` arithmetic is modelled over `ℚ`; the source's numeric literals
(0.05, 0.00001, DOMAIN_SIZE = 20.0, ...) become the corresponding exact
rationals.  Random number generation, the external `delaunator`
triangulation and the external `voronator` Voronoi diagram are modelled as
oracle parameters: the embedded functions take the values those sources
produce (random positions, the triangle index list, the per-cell polygon
list) as explicit arguments and are otherwise faithful to the source.
-/

namespace Vivarium

/-- Constant `DOMAIN_SIZE` from src/voronoi.rs. -/
def DOMAIN_SIZE : ℚ := 20

/-- Component `Chemicals` / `NextChemicals` (src/chemistry.rs): four
channels r, g, b, e. -/
structure Chem where
  r : ℚ
  g : ℚ
  b : ℚ
  e : ℚ
deriving DecidableEq, Repr

instance : Inhabited Chem := ⟨⟨0, 0, 0, 0⟩⟩

/-- Default `NextChemicals::default()`: all channels zero. -/
def Chem.zero : Chem := ⟨0, 0, 0, 0⟩

/-- Quadruple of rates, a `Vec4` (diffusion_rates / decay_rates in src/state.rs). -/
structure Vec4q where
  x : ℚ
  y : ℚ
  z : ℚ
  w : ℚ
deriving DecidableEq, Repr

/-- Triple modelling a `Vec3` over ℚ. -/
structure Vec3q where
  x : ℚ
  y : ℚ
  z : ℚ
deriving DecidableEq, Repr

/-- Matrix `Mat3` stored by columns, as `Mat3::from_cols` does in src/state.rs. -/
structure Mat3q where
  c0 : Vec3q
  c1 : Vec3q
  c2 : Vec3q
deriving DecidableEq, Repr

/-- Product `Mat3 * Vec3` (column-linear combination), as used at
src/chemistry.rs line 71 (`reaction * my_rgb`). -/
def Mat3q.mulVec (m : Mat3q) (v : Vec3q) : Vec3q :=
  ⟨m.c0.x * v.x + m.c1.x * v.y + m.c2.x * v.z,
   m.c0.y * v.x + m.c1.y * v.y + m.c2.y * v.z,
   m.c0.z * v.x + m.c1.z * v.y + m.c2.z * v.z⟩

/-- The all-zero 3×3 matrix. -/
def Mat3q.zero : Mat3q := ⟨⟨0, 0, 0⟩, ⟨0, 0, 0⟩, ⟨0, 0, 0⟩⟩

/-- Model of Rust `f32::clamp(lo, hi)` for `lo ≤ hi`: `min (max x lo) hi`. -/
def clampQ (x lo hi : ℚ) : ℚ := min (max x lo) hi

/-- Clamp `x.clamp(0.0, 1.0)` as on src/chemistry.rs lines 86-89. -/
def clamp01 (x : ℚ) : ℚ := clampQ x 0 1

/-- The Laplacian accumulation loop of `reaction_diffusion_system`
(src/chemistry.rs lines 52-66): per channel, sum of
`neighbor - self` over the resolvable neighbors.  The argument `nbrs`
is the list of chemical states of the neighbors that resolve through
`cell_map` (unresolvable indices contribute nothing, exactly as the
`if let Some .. && let Ok ..` guard skips them). -/
def laplacianOf (myChem : Chem) (nbrs : List Chem) : Vec4q :=
  nbrs.foldl
    (fun acc n =>
      ⟨acc.x + (n.r - myChem.r), acc.y + (n.g - myChem.g),
       acc.z + (n.b - myChem.b), acc.w + (n.e - myChem.e)⟩)
    ⟨0, 0, 0, 0⟩

/-- One cell's body of `reaction_diffusion_system`
(src/chemistry.rs lines 50-90): Laplacian, reaction `Mat3 * rgb`,
integration, decay applied to the just-integrated value, and clamping
each channel to [0,1].  The result is the cell's `NextChemicals`. -/
def reaction_diffusion_cell (dt : ℚ) (diff decay : Vec4q) (reaction : Mat3q)
    (myChem : Chem) (nbrs : List Chem) : Chem :=
  let lap := laplacianOf myChem nbrs
  let delta_rgb := reaction.mulVec ⟨myChem.r, myChem.g, myChem.b⟩
  let ir := myChem.r + diff.x * lap.x * dt + delta_rgb.x * dt
  let ig := myChem.g + diff.y * lap.y * dt + delta_rgb.y * dt
  let ib := myChem.b + diff.z * lap.z * dt + delta_rgb.z * dt
  let ie := myChem.e + diff.w * lap.w * dt
  let dr := ir - decay.x * dt * ir
  let dg := ig - decay.y * dt * ig
  let db := ib - decay.z * dt * ib
  let de := ie - decay.w * dt * ie
  ⟨clamp01 dr, clamp01 dg, clamp01 db, clamp01 de⟩

/-- Double-buffered chemical state of a cell: the committed `Chemicals`
component and the `NextChemicals` write buffer. -/
structure CellChem where
  chem : Chem
  nextChem : Chem
deriving DecidableEq, Repr

/-- The per-cell body of `state_update_system`
(src/chemistry.rs lines 226-231): commit `next_chemical` into
`chemical`.  (The material-color update it also performs is
presentation-only and carries no simulation state.) -/
def state_update_cell (c : CellChem) : CellChem :=
  { c with chem := c.nextChem }

/-- Observer `on_click_splash` (src/chemistry.rs lines 239-247): fixed positive
increments to the clicked cell's committed chemicals, with no clamping. -/
def on_click_splash (c : Chem) : Chem :=
  ⟨c.r + 5, c.g + 5, c.b + 5, c.e + 50⟩

/-- Position of a site in 2-D (`Vec2` in the source, `Point` for the geometry). -/
structure Site where
  x : ℚ
  y : ℚ
deriving DecidableEq, Repr

instance : Inhabited Site := ⟨⟨0, 0⟩⟩

/-- Model of Rust `f32::rem_euclid` for a positive divisor: the representative of
`a` modulo `b` in `[0, b)`. -/
def remEuclid (a b : ℚ) : ℚ := a - b * ⌊a / b⌋

/-- The position-integration tail of `chemical_motility_system`
(src/chemistry.rs lines 185-209), taking the accumulated `total_force`
(jitter plus interaction terms) as an input: overdamped velocity,
explicit Euler step, then wrap via `rem_euclid` or hard clamp.
The update is applied only when `velocity.length_squared() > 0.00001`;
otherwise the cell keeps its position. -/
def chemical_motility_integrate (pos : Site) (total_force : ℚ × ℚ)
    (friction dt : ℚ) (wrap : Bool) : Site :=
  if (total_force.1 * (1 - friction)) ^ 2 + (total_force.2 * (1 - friction)) ^ 2
      > 1 / 100000 then
    if wrap then
      ⟨remEuclid (pos.x + total_force.1 * (1 - friction) * dt + DOMAIN_SIZE / 2)
          DOMAIN_SIZE - DOMAIN_SIZE / 2,
       remEuclid (pos.y + total_force.2 * (1 - friction) * dt + DOMAIN_SIZE / 2)
          DOMAIN_SIZE - DOMAIN_SIZE / 2⟩
    else
      ⟨clampQ (pos.x + total_force.1 * (1 - friction) * dt)
          (-(DOMAIN_SIZE / 2)) (DOMAIN_SIZE / 2),
       clampQ (pos.y + total_force.2 * (1 - friction) * dt)
          (-(DOMAIN_SIZE / 2)) (DOMAIN_SIZE / 2)⟩
  else pos

/-- The eight ghost offsets of `spawn_mesh_system`
(src/voronoi.rs lines 61-70), in source order. -/
def ghostOffsets : List (ℚ × ℚ) :=
  [(-DOMAIN_SIZE, -DOMAIN_SIZE), (0, -DOMAIN_SIZE), (DOMAIN_SIZE, -DOMAIN_SIZE),
   (-DOMAIN_SIZE, 0), (DOMAIN_SIZE, 0),
   (-DOMAIN_SIZE, DOMAIN_SIZE), (0, DOMAIN_SIZE), (DOMAIN_SIZE, DOMAIN_SIZE)]

/-- Translate a site by an offset pair. -/
def shiftSite (o : ℚ × ℚ) (s : Site) : Site := ⟨s.x + o.1, s.y + o.2⟩

/-- Construction of `computation_points` of `spawn_mesh_system`
(src/voronoi.rs lines 48-79): the real sites, followed — when wrap is
enabled — by a copy of every site under each of the eight ghost
offsets (offsets outer loop, sites inner loop, as in the source). -/
def computationPoints (wrap : Bool) (sites : List Site) : List Site :=
  if wrap then
    sites ++ ghostOffsets.flatMap (fun o => sites.map (shiftSite o))
  else sites

/-- Adjacency membership as derived in `spawn_mesh_system`
(src/voronoi.rs lines 82-104): `v ∈ adjacency[u]` iff some triangle of
the triangulation has vertices `a`, `b` (as raw indices into the
computation points) with `a = u`, `a ≠ b`, `u < cellCount`,
`b % cellCount = v` and `u ≠ v`.  `tris` is the triangulation's
triangle list (an oracle for the external `delaunator` output). -/
def inAdjacency (tris : List (ℕ × ℕ × ℕ)) (cellCount : ℕ) (u v : ℕ) : Bool :=
  tris.any fun t =>
    let p := [t.1, t.2.1, t.2.2]
    p.any fun a => p.any fun b =>
      a = u && a ≠ b && a < cellCount && b % cellCount = v && u ≠ v

/-- Membership `v ∈ adjacency[u]` with a witnessing triangle whose second vertex is
itself a real index (`b < cellCount`), i.e. not a ghost copy. -/
def realWitness (tris : List (ℕ × ℕ × ℕ)) (cellCount : ℕ) (u v : ℕ) : Bool :=
  tris.any fun t =>
    let p := [t.1, t.2.1, t.2.2]
    p.any fun a => p.any fun b =>
      a = u && b = v && a ≠ b && a < cellCount && b < cellCount

/-- Entity record for a spawned/recycled cell: stable entity id, its `CellIndex`
component, the two chemical buffers and the `Neighbors` component. -/
structure CellEnt where
  id : ℕ
  cellIndex : ℕ
  chem : Chem
  nextChem : Chem
  neighbors : List ℕ
deriving DecidableEq, Repr

instance : Inhabited CellEnt := ⟨⟨0, 0, default, default, []⟩⟩

/-- The slice of `SimState` plus `CellMap` that `spawn_mesh_system` and
`on_cell_drag` read and write: the site list, the target population
size, the `cell_map` entity list (with each entity's components) and
the rebuild flag. -/
structure RebuildState where
  sites : List Site
  cellCount : ℕ
  entities : List CellEnt
  rebuildRequested : Bool
deriving DecidableEq, Repr

/-- Site synchronization of `spawn_mesh_system`
(src/voronoi.rs lines 29-46): grow by pushing freshly sampled random
positions (the oracle list `freshSites`, drawn by `gen_range` in the
source), shrink by truncating. -/
def syncSites (sites : List Site) (target : ℕ) (freshSites : List Site) :
    List Site :=
  if sites.length < target then
    sites ++ freshSites.take (target - sites.length)
  else sites.take target

/-- Whether the diagram cell at index `i` is processed by the spawn loop
(src/voronoi.rs lines 132-141): it must exist among the first
`cellCount` cells and have a non-degenerate polygon (at least 3
points); otherwise the loop `continue`s. -/
def cellProcessed (polys : List (List Site)) (i : ℕ) : Bool :=
  3 ≤ (polys.getD i []).length

/-- The recycle path of `spawn_mesh_system`
(src/voronoi.rs lines 162-171): each entity keeps its id, `CellIndex`
and both chemical buffers; its `Neighbors` component is replaced by the
freshly computed adjacency — except for cells the loop skips
(degenerate or absent polygon), which keep their old neighbors. -/
def recycleEnts (ents : List CellEnt) (polys : List (List Site))
    (adjacency : ℕ → List ℕ) : List CellEnt :=
  (List.range ents.length).map fun i =>
    let e := ents.getD i default
    if cellProcessed polys i then { e with neighbors := adjacency i } else e

/-- The spawn path of `spawn_mesh_system`
(src/voronoi.rs lines 172-224): one fresh entity per processed cell
index, with a fresh id (oracle `freshIds`), seeded chemicals (oracle
`seedChem`, standing for the position-gradient-plus-noise seeding of
lines 176-194), a default `NextChemicals` buffer and the fresh
adjacency. -/
def spawnEnts (cellCount : ℕ) (polys : List (List Site))
    (adjacency : ℕ → List ℕ) (seedChem : ℕ → Chem) (freshIds : ℕ → ℕ) :
    List CellEnt :=
  ((List.range cellCount).filter (fun i => cellProcessed polys i)).map fun i =>
    ⟨freshIds i, i, seedChem i, Chem.zero, adjacency i⟩

/-- System `spawn_mesh_system` (src/voronoi.rs lines 17-229) on the modelled
state slice.  `polys` is the oracle for the cells of the external
`VoronoiDiagram` (`none` when the diagram construction fails, in which
case no entity is touched).  The adjacency derived from the
triangulation is passed as `adjacency`.  Early-returns when no rebuild
is requested; otherwise syncs the sites, recycles entities when
`cell_map.entities.len() == state.cell_count`, else despawns every
entity and spawns a fresh population, and clears the rebuild flag. -/
def spawn_mesh_system (st : RebuildState) (freshSites : List Site)
    (polys : Option (List (List Site))) (adjacency : ℕ → List ℕ)
    (seedChem : ℕ → Chem) (freshIds : ℕ → ℕ) : RebuildState :=
  if st.rebuildRequested = false then st
  else
    let sites := syncSites st.sites st.cellCount freshSites
    let ents :=
      match polys with
      | none => st.entities
      | some ps =>
        if st.entities.length = st.cellCount then recycleEnts st.entities ps adjacency
        else spawnEnts st.cellCount ps adjacency seedChem freshIds
    ⟨sites, st.cellCount, ents, false⟩

/-- Observer `on_cell_drag` (src/voronoi.rs lines 232-267): scale the screen
delta by the sensitivity 0.05, add to x, subtract from y, clamp both
axes into the domain, and request a rebuild immediately. -/
def on_cell_drag (st : RebuildState) (idx : ℕ) (delta : ℚ × ℚ) : RebuildState :=
  let bound : ℚ := DOMAIN_SIZE / 2
  let sensitivity : ℚ := 1 / 20
  let sites :=
    match st.sites.get? idx with
    | some s =>
      st.sites.set idx
        ⟨clampQ (s.x + delta.1 * sensitivity) (-bound) bound,
         clampQ (s.y - delta.2 * sensitivity) (-bound) bound⟩
    | none => st.sites
  ⟨sites, st.cellCount, st.entities, true⟩

/-- The value `reaction_diffusion_system` writes into cell `i`'s
`NextChemicals`: the per-cell body applied to cell `i`'s committed
chemicals and the committed chemicals of its resolvable neighbors
(indices resolved through the `cell_map` list, unresolvable ones
skipped). -/
def rd_compute (dt : ℚ) (diff decay : Vec4q) (reaction : Mat3q)
    (chems : List Chem) (nbrs : List (List ℕ)) (i : ℕ) : Chem :=
  reaction_diffusion_cell dt diff decay reaction (chems.getD i default)
    ((nbrs.getD i []).filterMap fun j => chems.get? j)

/-- One whole `reaction_diffusion_system` pass
(src/chemistry.rs lines 38-91): the query iterates the cells in some
order (`order`, a list of cell indices) and each iteration writes only
its own `NextChemicals` slot, reading only committed `Chemicals`.
`chems` is the committed per-cell chemical list, `nbrs` the per-cell
neighbor index list, `next0` the pre-pass contents of the
`NextChemicals` buffers. -/
def reaction_diffusion_pass (dt : ℚ) (diff decay : Vec4q) (reaction : Mat3q)
    (chems : List Chem) (nbrs : List (List ℕ)) (next0 : List Chem)
    (order : List ℕ) : List Chem :=
  order.foldl (fun buf i => buf.set i (rd_compute dt diff decay reaction chems nbrs i)) next0

/-- Rates `diffusion_rates` of the default preset (src/state.rs line 46). -/
def defaultDiffusion : Vec4q := ⟨1/5, 3/10, 2/5, 1/2⟩

/-- Rates `decay_rates` of the default preset (src/state.rs line 49). -/
def defaultDecay : Vec4q := ⟨3/10, 2/5, 1/2, 3/5⟩

/-- Matrix `reaction_matrix` of the default preset (src/state.rs lines 24-28):
`Mat3::from_cols((0,0,1),(1,0,0),(0,1,0)) * 0.4`. -/
def defaultReaction : Mat3q :=
  ⟨⟨0, 0, 2/5⟩, ⟨2/5, 0, 0⟩, ⟨0, 2/5, 0⟩⟩

/-- Modelled from the spec (§4.2 of spec.md), for comparison with the
source-derived `reaction_diffusion_cell`: per channel `c`,
`L_c = Σ_{n ∈ neighbors} (chemical[n][c] − chemical[self][c])`;
`next[c] = chemical[c] + dt·diffusionRate[c]·L_c (+ dt·Δrgb[c] for r,g,b)`
with `Δrgb = ReactionMatrix · (r,g,b)`; then
`next[c] -= dt·decayRate[c]·next[c]` on the just-integrated value; then
clamp to [0,1]. -/
def rd_spec_cell (dt : ℚ) (diff decay : Vec4q) (reaction : Mat3q)
    (chem : Chem) (nbrs : List Chem) : Chem :=
  let lr := (nbrs.map fun n => n.r - chem.r).sum
  let lg := (nbrs.map fun n => n.g - chem.g).sum
  let lb := (nbrs.map fun n => n.b - chem.b).sum
  let le := (nbrs.map fun n => n.e - chem.e).sum
  let delta_rgb := reaction.mulVec ⟨chem.r, chem.g, chem.b⟩
  let ir := chem.r + dt * diff.x * lr + dt * delta_rgb.x
  let ig := chem.g + dt * diff.y * lg + dt * delta_rgb.y
  let ib := chem.b + dt * diff.z * lb + dt * delta_rgb.z
  let ie := chem.e + dt * diff.w * le
  ⟨clamp01 (ir - dt * decay.x * ir), clamp01 (ig - dt * decay.y * ig),
   clamp01 (ib - dt * decay.z * ib), clamp01 (ie - dt * decay.w * ie)⟩

/-- The offset grid the spec describes for the ghost construction:
every combination of `{-D, 0, +D}` in x and y except the zero offset. -/
def nonzeroGridOffsets : List (ℚ × ℚ) :=
  (([-DOMAIN_SIZE, 0, DOMAIN_SIZE].flatMap fun dx =>
      [-DOMAIN_SIZE, 0, DOMAIN_SIZE].map fun dy => ((dx : ℚ), (dy : ℚ)))).filter
    fun o => o ≠ ((0 : ℚ), (0 : ℚ))

/-- What one motility step does to a cell's position once the velocity
threshold is passed: the explicit Euler step on
`velocity = totalForce · (1 − friction)`, then wrap into
`[-D/2, D/2)` via the negative-safe modulo, or hard clamp into
`[-D/2, D/2]`. -/
def motilityResultOK (pos : Site) (f : ℚ × ℚ) (friction dt : ℚ) : Prop :=
  let bound : ℚ := DOMAIN_SIZE / 2
  let vx := f.1 * (1 - friction)
  let vy := f.2 * (1 - friction)
  let wrapped := chemical_motility_integrate pos f friction dt true
  let clamped := chemical_motility_integrate pos f friction dt false
  wrapped = ⟨remEuclid (pos.x + vx * dt + bound) DOMAIN_SIZE - bound,
             remEuclid (pos.y + vy * dt + bound) DOMAIN_SIZE - bound⟩ ∧
  (-bound ≤ wrapped.x ∧ wrapped.x < bound) ∧
  (-bound ≤ wrapped.y ∧ wrapped.y < bound) ∧
  clamped = ⟨clampQ (pos.x + vx * dt) (-bound) bound,
             clampQ (pos.y + vy * dt) (-bound) bound⟩ ∧
  (-bound ≤ clamped.x ∧ clamped.x ≤ bound) ∧
  (-bound ≤ clamped.y ∧ clamped.y ≤ bound)

/-- What `on_cell_drag` does when the dragged index resolves to site
`s`: the site becomes `s` plus the sensitivity-scaled delta (y
negated), clamped per axis into the domain; every other site is
untouched; the rebuild flag is raised within the same operation; the
entity list and the target count are untouched. -/
def dragResultOK (st : RebuildState) (idx : ℕ) (delta : ℚ × ℚ) (s : Site) : Prop :=
  let res := on_cell_drag st idx delta
  let bound : ℚ := DOMAIN_SIZE / 2
  res.sites.get? idx =
      some ⟨clampQ (s.x + delta.1 * (1/20)) (-bound) bound,
            clampQ (s.y - delta.2 * (1/20)) (-bound) bound⟩ ∧
  (∀ p, res.sites.get? idx = some p →
      (-bound ≤ p.x ∧ p.x ≤ bound) ∧ (-bound ≤ p.y ∧ p.y ≤ bound)) ∧
  (∀ j, j ≠ idx → res.sites.get? j = st.sites.get? j) ∧
  res.rebuildRequested = true ∧
  res.entities = st.entities ∧ res.cellCount = st.cellCount

/-- The recycle path's contract: the entity list keeps its length and,
slot by slot, the entity's id, `CellIndex` and both chemical buffers;
the neighbor set is replaced by the fresh adjacency for processed
(non-degenerate) cells and kept for skipped ones. -/
def recyclePreserves (st res : RebuildState) (polys : List (List Site))
    (adjacency : ℕ → List ℕ) : Prop :=
  res.entities.length = st.entities.length ∧
  ∀ i, i < st.entities.length →
    (res.entities.getD i default).id = (st.entities.getD i default).id ∧
    (res.entities.getD i default).cellIndex = (st.entities.getD i default).cellIndex ∧
    (res.entities.getD i default).chem = (st.entities.getD i default).chem ∧
    (res.entities.getD i default).nextChem = (st.entities.getD i default).nextChem ∧
    (cellProcessed polys i = true →
      (res.entities.getD i default).neighbors = adjacency i) ∧
    (cellProcessed polys i = false →
      (res.entities.getD i default).neighbors = (st.entities.getD i default).neighbors)

/-- The spawn path's contract under non-degeneracy: exactly `n` fresh
entities, the `i`-th carrying the fresh id, `CellIndex i`, the seeded
chemicals, a zero `NextChemicals` buffer and the fresh adjacency. -/
def freshPopulation (res : RebuildState) (n : ℕ) (adjacency : ℕ → List ℕ)
    (seedChem : ℕ → Chem) (freshIds : ℕ → ℕ) : Prop :=
  res.entities.length = n ∧
  ∀ i, i < n →
    res.entities.getD i default = ⟨freshIds i, i, seedChem i, Chem.zero, adjacency i⟩

/-- The rebuild's full contract, relative to the diagram/adjacency/RNG
oracles: the sites become the synchronized site list (existing
positions kept, grow appends the freshly sampled ones, shrink
truncates); the rebuild flag is cleared; when the entity count equals
the target the recycle path preserves each cell and replaces only its
neighbors; when it differs (and every polygon up to the target is
non-degenerate) a fresh population of exactly the target size is
spawned. -/
def rebuildContract (st : RebuildState) (freshSites : List Site)
    (polys : List (List Site)) (adjacency : ℕ → List ℕ)
    (seedChem : ℕ → Chem) (freshIds : ℕ → ℕ) : Prop :=
  let res := spawn_mesh_system st freshSites (some polys) adjacency seedChem freshIds
  res.sites = syncSites st.sites st.cellCount freshSites ∧
  res.rebuildRequested = false ∧
  (st.entities.length = st.cellCount →
    recyclePreserves st res polys adjacency) ∧
  (st.entities.length ≠ st.cellCount →
    (∀ i, i < st.cellCount → cellProcessed polys i = true) →
    freshPopulation res st.cellCount adjacency seedChem freshIds)

/-- Live-slot property for a neighbor index `v` under a target count
`N`: every rebuild that either recycles (entity count equal to the
target) or spawns with no degenerate polygon among the first `N`
diagram cells produces a cell map in which slot `v` is occupied.  When
the spawn path skips a degenerate cell the map is shorter than the
target and this can fail (see the C10 counterexample). -/
def liveSlotOK (N v : ℕ) : Prop :=
  ∀ (st : RebuildState) (freshSites : List Site) (polys : List (List Site))
    (adjacency : ℕ → List ℕ) (seedChem : ℕ → Chem) (freshIds : ℕ → ℕ),
    st.rebuildRequested = true → st.cellCount = N →
    (st.entities.length = st.cellCount ∨
      (∀ i, i < st.cellCount → cellProcessed polys i = true)) →
    ((spawn_mesh_system st freshSites (some polys) adjacency seedChem
        freshIds).entities.get? v).isSome = true

theorem clamp01_nonneg (x : ℚ) : 0 ≤ clamp01 x :=
  le_min (le_max_right x 0) zero_le_one

theorem clamp01_le_one (x : ℚ) : clamp01 x ≤ 1 :=
  min_le_right _ _

theorem clamp01_eq_self {x : ℚ} (h0 : 0 ≤ x) (h1 : x ≤ 1) : clamp01 x = x := by
  unfold clamp01 clampQ
  rw [max_eq_left h0, min_eq_left h1]

theorem clampQ_mem {lo hi : ℚ} (x : ℚ) (h : lo ≤ hi) :
    lo ≤ clampQ x lo hi ∧ clampQ x lo hi ≤ hi :=
  ⟨le_min (le_max_right x lo) h, min_le_right _ _⟩

theorem laplacian_fold (c : Chem) : ∀ (l : List Chem) (acc : Vec4q),
    l.foldl
      (fun acc n =>
        ⟨acc.x + (n.r - c.r), acc.y + (n.g - c.g),
         acc.z + (n.b - c.b), acc.w + (n.e - c.e)⟩)
      acc
    = ⟨acc.x + (l.map fun n => n.r - c.r).sum,
       acc.y + (l.map fun n => n.g - c.g).sum,
       acc.z + (l.map fun n => n.b - c.b).sum,
       acc.w + (l.map fun n => n.e - c.e).sum⟩ := by
  intro l
  induction l with
  | nil => intro acc; simp
  | cons h t ih =>
    intro acc
    simp only [List.foldl_cons, List.map_cons, List.sum_cons, ih, Vec4q.mk.injEq]
    refine ⟨by ring, by ring, by ring, by ring⟩

theorem laplacianOf_eq (c : Chem) (l : List Chem) :
    laplacianOf c l =
      ⟨(l.map fun n => n.r - c.r).sum, (l.map fun n => n.g - c.g).sum,
       (l.map fun n => n.b - c.b).sum, (l.map fun n => n.e - c.e).sum⟩ := by
  unfold laplacianOf
  rw [laplacian_fold]
  simp

/-- Claim C1: for every cell and every channel, immediately after the
commit step (`state_update_system` copying `next_chemical` into
`chemical`) the value of each chemical channel lies in [0,1], whatever
the committed pre-state was (in particular a post-splash state that
exceeds 1); and a splash itself can leave a channel above 1. -/
theorem C1_commit_clamp_invariant :
    (∀ (dt : ℚ) (diff decay : Vec4q) (reaction : Mat3q) (cur myChem : Chem)
        (nbrs : List Chem),
      let committed :=
        (state_update_cell
          ⟨cur, reaction_diffusion_cell dt diff decay reaction myChem nbrs⟩).chem
      (0 ≤ committed.r ∧ committed.r ≤ 1) ∧ (0 ≤ committed.g ∧ committed.g ≤ 1) ∧
      (0 ≤ committed.b ∧ committed.b ≤ 1) ∧ (0 ≤ committed.e ∧ committed.e ≤ 1))
    ∧ 1 < (on_click_splash ⟨1/10, 1/10, 1/10, 1/10⟩).r := by
  constructor
  · intro dt diff decay reaction cur myChem nbrs
    refine ⟨⟨?_, ?_⟩, ⟨?_, ?_⟩, ⟨?_, ?_⟩, ⟨?_, ?_⟩⟩ <;>
      first
        | exact clamp01_nonneg _
        | exact clamp01_le_one _
  · norm_num [on_click_splash]

theorem rd_cell_eq_spec (dt : ℚ) (diff decay : Vec4q) (reaction : Mat3q)
    (chem : Chem) (nbrs : List Chem) :
    reaction_diffusion_cell dt diff decay reaction chem nbrs =
      rd_spec_cell dt diff decay reaction chem nbrs := by
  unfold reaction_diffusion_cell rd_spec_cell
  rw [laplacianOf_eq]
  simp only [Chem.mk.injEq]
  refine ⟨?_, ?_, ?_, ?_⟩ <;> (apply congrArg; ring)

/-- Claim C2: one reaction-diffusion step computes exactly the
spec-described per-channel formula (unnormalized Laplacian sum,
reaction term for r,g,b only, integration, semi-implicit decay on the
just-integrated value, then clamping to [0,1]): the source-derived
step coincides with the spec-derived step on every input. -/
theorem C2_rd_step_formula (dt : ℚ) (diff decay : Vec4q) (reaction : Mat3q)
    (chem : Chem) (nbrs : List Chem) :
    reaction_diffusion_cell dt diff decay reaction chem nbrs =
      rd_spec_cell dt diff decay reaction chem nbrs :=
  rd_cell_eq_spec dt diff decay reaction chem nbrs

theorem decay_channel (v d : ℚ) (h0 : 0 ≤ v) (h1 : v ≤ 1)
    (hd0 : 0 ≤ d) (hd1 : d ≤ 1) :
    clamp01 (v - d * v) = v - d * v := by
  apply clamp01_eq_self
  · nlinarith
  · nlinarith

/-- Claim C8 (counterexample): with the default preset's nonzero
reaction matrix, an isolated cell (empty neighbor set) with chemicals
(1,0,0,0) and dt = 1 gets next.b = 1/5 from the committed step, while
the claimed decay-only formula `chem.b - dt·decay.b·chem.b` gives 0:
the step is not decay-only on the r,g,b channels. -/
theorem C8_counterexample :
    (reaction_diffusion_cell 1 defaultDiffusion defaultDecay defaultReaction
        ⟨1, 0, 0, 0⟩ []).b = 1/5
    ∧ ((1 : ℚ)/5) ≠ (0 : ℚ) - 1 * ((1 : ℚ)/2) * 0 := by
  constructor
  · norm_num [reaction_diffusion_cell, laplacianOf, Mat3q.mulVec,
      defaultDiffusion, defaultDecay, defaultReaction, clamp01, clampQ]
  · norm_num

/-- Claim C8 (amended): for a single cell with an empty neighbor set
(jitter is irrelevant to chemistry), the committed step is decay-only —
`next[c] = chemical[c] - dt·decayRate[c]·chemical[c]` for every
channel — provided the reaction matrix is zero (otherwise r,g,b also
receive the reaction term) and dt is such that `dt·decayRate[c] ∈ [0,1]`
with `chemical[c] ∈ [0,1]` (so the final clamp is the identity; the
claim's "for any chosen dt" fails for large dt because of clamping). -/
theorem C8_decay_only_amended (dt : ℚ) (diff decay : Vec4q) (chem : Chem)
    (hc : (0 ≤ chem.r ∧ chem.r ≤ 1) ∧ (0 ≤ chem.g ∧ chem.g ≤ 1) ∧
          (0 ≤ chem.b ∧ chem.b ≤ 1) ∧ (0 ≤ chem.e ∧ chem.e ≤ 1))
    (hd : (0 ≤ dt * decay.x ∧ dt * decay.x ≤ 1) ∧
          (0 ≤ dt * decay.y ∧ dt * decay.y ≤ 1) ∧
          (0 ≤ dt * decay.z ∧ dt * decay.z ≤ 1) ∧
          (0 ≤ dt * decay.w ∧ dt * decay.w ≤ 1)) :
    reaction_diffusion_cell dt diff decay Mat3q.zero chem [] =
      ⟨chem.r - dt * decay.x * chem.r, chem.g - dt * decay.y * chem.g,
       chem.b - dt * decay.z * chem.b, chem.e - dt * decay.w * chem.e⟩ := by
  obtain ⟨⟨hr0, hr1⟩, ⟨hg0, hg1⟩, ⟨hb0, hb1⟩, ⟨he0, he1⟩⟩ := hc
  obtain ⟨⟨hdx0, hdx1⟩, ⟨hdy0, hdy1⟩, ⟨hdz0, hdz1⟩, ⟨hdw0, hdw1⟩⟩ := hd
  rw [rd_cell_eq_spec]
  unfold rd_spec_cell Mat3q.zero Mat3q.mulVec
  simp only [List.map_nil, List.sum_nil, mul_zero, zero_mul, add_zero, zero_add,
    Chem.mk.injEq]
  exact ⟨decay_channel chem.r (dt * decay.x) hr0 hr1 hdx0 hdx1,
         decay_channel chem.g (dt * decay.y) hg0 hg1 hdy0 hdy1,
         decay_channel chem.b (dt * decay.z) hb0 hb1 hdz0 hdz1,
         decay_channel chem.e (dt * decay.w) he0 he1 hdw0 hdw1⟩

theorem remEuclid_mem (a b : ℚ) (hb : 0 < b) :
    0 ≤ remEuclid a b ∧ remEuclid a b < b := by
  unfold remEuclid
  have h1 : ((⌊a / b⌋ : ℤ) : ℚ) * b ≤ a := (le_div_iff₀ hb).mp (Int.floor_le (a / b))
  have h2 : a < (((⌊a / b⌋ : ℤ) : ℚ) + 1) * b :=
    (div_lt_iff₀ hb).mp (Int.lt_floor_add_one (a / b))
  constructor
  · nlinarith
  · nlinarith

/-- Claim C7 (counterexample): with friction 0, total force
(1/1000, 0) and dt = 1 the velocity is (1/1000, 0), whose squared
length 1/1000000 is below the 0.00001 threshold, so the cell does not
move at all — while the claim's `position + velocity·dt` is
(1/1000, 0) ≠ (0, 0).  The claim omits the velocity threshold guard. -/
theorem C7_counterexample :
    chemical_motility_integrate ⟨0, 0⟩ (1/1000, 0) 0 1 false = ⟨0, 0⟩
    ∧ ((⟨0 + 1/1000 * (1 - 0) * 1, 0 + 0 * (1 - 0) * 1⟩ : Site) ≠ ⟨0, 0⟩) := by
  constructor
  · unfold chemical_motility_integrate
    norm_num
  · simp only [ne_eq, Site.mk.injEq, not_and]
    norm_num

/-- Claim C7 (amended): whenever the velocity
`(f.1·(1−friction), f.2·(1−friction))` has squared length above the
source's 0.00001 threshold (otherwise the position is left unchanged),
one motility step sets the new position to `position + velocity·dt`
and then maps each axis into `[-D/2, D/2)` by the negative-safe modulo
when wrap is enabled, or hard-clamps it into `[-D/2, D/2]` otherwise. -/
theorem C7_motility_amended (pos : Site) (f : ℚ × ℚ) (friction dt : ℚ)
    (h : (f.1 * (1 - friction)) ^ 2 + (f.2 * (1 - friction)) ^ 2 > 1 / 100000) :
    motilityResultOK pos f friction dt := by
  have hD : (0 : ℚ) < DOMAIN_SIZE := by norm_num [DOMAIN_SIZE]
  have hx := remEuclid_mem (pos.x + f.1 * (1 - friction) * dt + DOMAIN_SIZE / 2)
    DOMAIN_SIZE hD
  have hy := remEuclid_mem (pos.y + f.2 * (1 - friction) * dt + DOMAIN_SIZE / 2)
    DOMAIN_SIZE hD
  have hcx := @clampQ_mem (-(DOMAIN_SIZE / 2)) (DOMAIN_SIZE / 2)
    (pos.x + f.1 * (1 - friction) * dt) (by norm_num [DOMAIN_SIZE])
  have hcy := @clampQ_mem (-(DOMAIN_SIZE / 2)) (DOMAIN_SIZE / 2)
    (pos.y + f.2 * (1 - friction) * dt) (by norm_num [DOMAIN_SIZE])
  unfold motilityResultOK chemical_motility_integrate
  rw [if_pos h, if_pos h]
  simp only [if_true, Bool.false_eq_true, if_false]
  refine ⟨by trivial, ⟨by linarith [hx.1], by linarith [hx.2]⟩,
    ⟨by linarith [hy.1], by linarith [hy.2]⟩, by trivial,
    ⟨hcx.1, hcx.2⟩, ⟨hcy.1, hcy.2⟩⟩

/-- Witness for C7_motility_amended: force (1, 0), friction 0, dt = 1
from the origin. -/
theorem C7_motility_amended_witness :
    motilityResultOK ⟨0, 0⟩ (1, 0) 0 1 :=
  C7_motility_amended ⟨0, 0⟩ (1, 0) 0 1 (by norm_num)

/-- Claim C9 (counterexample): dragging the cell at site (0,0) by
screen delta (0, 20) moves it to (0, −1): the y component of the delta
is scaled by the sensitivity and then subtracted (screen-down maps to
world-negative-y), not added as the claim states, which would give
(0, 1). -/
theorem C9_counterexample :
    (on_cell_drag ⟨[⟨0, 0⟩], 1, [], false⟩ 0 (0, 20)).sites = [⟨0, -1⟩]
    ∧ ((⟨0, -1⟩ : Site) ≠ ⟨0 + 0 * (1/20), 0 + 20 * (1/20)⟩) := by
  constructor
  · unfold on_cell_drag
    norm_num [clampQ, DOMAIN_SIZE]
  · simp only [ne_eq, Site.mk.injEq, not_and]
    norm_num

/-- Claim C9 (amended): for every cell index that resolves to a site,
the Drag operation adds `delta.x` scaled by the fixed sensitivity 0.05
to the site's x and subtracts `delta.y` scaled by the same sensitivity
from its y, clamps the resulting position into `[-D/2, D/2]` on each
axis, leaves every other site untouched, and raises the
rebuild-request flag immediately within the same operation. -/
theorem C9_drag_amended (st : RebuildState) (idx : ℕ) (delta : ℚ × ℚ)
    (s : Site) (h : st.sites.get? idx = some s) :
    dragResultOK st idx delta s := by
  have hlen : idx < st.sites.length := by
    rcases List.get?_eq_some.mp h with ⟨hl, _⟩
    exact hl
  unfold dragResultOK on_cell_drag
  rw [h]
  simp only [List.get?_eq_getElem?]
  refine ⟨?_, ?_, ?_, by trivial, by trivial, by trivial⟩
  · rw [List.getElem?_set]
    simp [hlen]
  · intro p hp
    rw [List.getElem?_set] at hp
    simp only [if_pos rfl, hlen, if_true, Option.some.injEq] at hp
    subst hp
    have h1 := @clampQ_mem (-(DOMAIN_SIZE / 2)) (DOMAIN_SIZE / 2)
      (s.x + delta.1 * (1/20)) (by norm_num [DOMAIN_SIZE])
    have h2 := @clampQ_mem (-(DOMAIN_SIZE / 2)) (DOMAIN_SIZE / 2)
      (s.y - delta.2 * (1/20)) (by norm_num [DOMAIN_SIZE])
    exact ⟨⟨h1.1, h1.2⟩, ⟨h2.1, h2.2⟩⟩
  · intro j hj
    rw [List.getElem?_set, if_neg (fun hh => hj hh.symm)]

/-- Witness for C9_drag_amended: a single site at the origin dragged by
(2, 4). -/
theorem C9_drag_amended_witness :
    dragResultOK ⟨[⟨0, 0⟩], 1, [], false⟩ 0 (2, 4) ⟨0, 0⟩ :=
  C9_drag_amended ⟨[⟨0, 0⟩], 1, [], false⟩ 0 (2, 4) ⟨0, 0⟩ rfl

/-- Witness for C8_decay_only_amended at dt = 1 with the default decay
rates and chemicals (1/2, 1/2, 1/2, 1/2). -/
theorem C8_decay_only_amended_witness :
    reaction_diffusion_cell 1 defaultDiffusion defaultDecay Mat3q.zero
        ⟨1/2, 1/2, 1/2, 1/2⟩ [] =
      ⟨1/2 - 1 * (3/10) * (1/2), 1/2 - 1 * (2/5) * (1/2),
       1/2 - 1 * (1/2) * (1/2), 1/2 - 1 * (3/5) * (1/2)⟩ :=
  C8_decay_only_amended 1 defaultDiffusion defaultDecay ⟨1/2, 1/2, 1/2, 1/2⟩
    (by norm_num) (by norm_num [defaultDecay])

/-- Claim C5: under wrap, the point set handed to the triangulation is
the N real sites followed by the ghost block — for each of the eight
offsets, a shifted copy of every site — for 9N points in total, and the
eight offsets are exactly the combinations of {-D, 0, +D} in x and y
minus the zero offset; without wrap the point set equals the real
sites. -/
theorem C5_ghost_points (sites : List Site) :
    computationPoints false sites = sites
    ∧ (computationPoints true sites).length = 9 * sites.length
    ∧ (computationPoints true sites).take sites.length = sites
    ∧ (computationPoints true sites).drop sites.length =
        ghostOffsets.flatMap (fun o => sites.map (shiftSite o))
    ∧ ghostOffsets.Perm nonzeroGridOffsets := by
  refine ⟨rfl, ?_, ?_, ?_, by decide⟩
  · simp only [computationPoints, if_true, List.length_append,
      List.length_flatMap, ghostOffsets, List.map_cons, List.map_nil,
      Function.comp, List.length_map, List.sum_cons, List.sum_nil]
    ring
  · simp only [computationPoints, if_true, List.take_left]
  · simp only [computationPoints, if_true, List.drop_left]

theorem inAdjacency_bounds (tris : List (ℕ × ℕ × ℕ)) (N u v : ℕ)
    (hN : 0 < N) (h : inAdjacency tris N u v = true) :
    v < N ∧ v ≠ u ∧ u < N := by
  unfold inAdjacency at h
  simp only [List.any_eq_true, Bool.and_eq_true, decide_eq_true_eq] at h
  obtain ⟨t, ht, a, ha, b, hb, ⟨⟨⟨hau, hne⟩, haN⟩, hmod⟩, huv⟩ := h
  exact ⟨hmod ▸ Nat.mod_lt b hN, fun hh => huv hh.symm, hau ▸ haN⟩

/-- Claim C6 (counterexample): with 2 cells, a triangulation whose only
triangle is (0, 3, 5) — real vertex 0 together with ghost copies of
cells 1 (index 3 = 1 mod 2) and 1 (index 5) — yields 1 ∈ neighbors(0)
but 0 ∉ neighbors(1): the triangle-membership derivation does not by
itself guarantee symmetry when the witnessing vertex is a ghost index,
because no triangle need contain the real vertex 1 together with a
copy of 0. -/
theorem C6_counterexample :
    inAdjacency [(0, 3, 5)] 2 0 1 = true
    ∧ inAdjacency [(0, 3, 5)] 2 1 0 = false := by decide

/-- Claim C6 (amended): if `v ∈ neighbors(u)` is witnessed by a
triangle in which the vertex mapping to `v` is itself a real index
(`v < cellCount` as a raw triangulation index, not a ghost copy), then
`u ∈ neighbors(v)` on the same tessellation; when the witness is a
ghost index the derivation alone does not guarantee symmetry (it needs
the triangulation to contain a mirrored triangle). -/
theorem C6_symmetry_amended (tris : List (ℕ × ℕ × ℕ)) (N u v : ℕ)
    (h : realWitness tris N u v = true) :
    inAdjacency tris N v u = true := by
  unfold realWitness at h
  simp only [List.any_eq_true, Bool.and_eq_true, decide_eq_true_eq] at h
  obtain ⟨t, ht, a, ha, b, hb, ⟨⟨⟨hau, hbv⟩, hne⟩, haN⟩, hbN⟩ := h
  unfold inAdjacency
  simp only [List.any_eq_true, Bool.and_eq_true, decide_eq_true_eq]
  subst hau
  subst hbv
  exact ⟨t, ht, b, hb, a, ha,
    ⟨⟨⟨rfl, fun hh => hne hh.symm⟩, hbN⟩, Nat.mod_eq_of_lt haN⟩,
    fun hh => hne hh.symm⟩

/-- Witness for C6_symmetry_amended on the all-real triangle (0,1,2)
with three cells. -/
theorem C6_symmetry_amended_witness :
    realWitness [(0, 1, 2)] 3 0 1 = true ∧ inAdjacency [(0, 1, 2)] 3 1 0 = true :=
  ⟨by decide, C6_symmetry_amended [(0, 1, 2)] 3 0 1 (by decide)⟩

theorem rd_pass_getElem? (dt : ℚ) (diff decay : Vec4q) (reaction : Mat3q)
    (chems : List Chem) (nbrs : List (List ℕ)) :
    ∀ (order : List ℕ) (buf : List Chem) (j : ℕ),
      (reaction_diffusion_pass dt diff decay reaction chems nbrs buf order)[j]? =
        if j ∈ order ∧ j < buf.length
        then some (rd_compute dt diff decay reaction chems nbrs j)
        else buf[j]? := by
  intro order
  induction order with
  | nil =>
    intro buf j
    simp [reaction_diffusion_pass]
  | cons i rest ih =>
    intro buf j
    have hstep : reaction_diffusion_pass dt diff decay reaction chems nbrs buf (i :: rest) =
        reaction_diffusion_pass dt diff decay reaction chems nbrs
          (buf.set i (rd_compute dt diff decay reaction chems nbrs i)) rest := rfl
    rw [hstep, ih, List.length_set]
    by_cases h2 : j < buf.length
    · by_cases h1 : j ∈ rest
      · simp [h1, h2, List.mem_cons]
      · by_cases h3 : j = i
        · subst h3
          simp [h1, h2, List.mem_cons, List.getElem?_set]
        · have hc1 : ¬(j ∈ rest ∧ j < buf.length) := fun hh => h1 hh.1
          have hc2 : ¬(j ∈ i :: rest ∧ j < buf.length) := by
            rintro ⟨hm, _⟩
            rcases List.mem_cons.mp hm with hh | hh
            · exact h3 hh
            · exact h1 hh
          rw [if_neg hc1, if_neg hc2, List.getElem?_set,
            if_neg (fun hh : i = j => h3 hh.symm)]
    · have hnone : buf[j]? = none := List.getElem?_eq_none (Nat.le_of_not_lt h2)
      have hnone2 : (buf.set i (rd_compute dt diff decay reaction chems nbrs i))[j]? = none := by
        rw [List.getElem?_eq_none]
        rw [List.length_set]
        exact Nat.le_of_not_lt h2
      simp [h2, hnone, hnone2]

/-- Claim C3: within a single reaction-diffusion step, permuting the
iteration order of the cells produces exactly the same next-chemical
buffer, because each cell's update reads only the previously committed
chemical state and writes only its own slot. -/
theorem C3_order_independence (dt : ℚ) (diff decay : Vec4q) (reaction : Mat3q)
    (chems : List Chem) (nbrs : List (List ℕ)) (next0 : List Chem)
    (order1 order2 : List ℕ) (hperm : order1.Perm order2) :
    reaction_diffusion_pass dt diff decay reaction chems nbrs next0 order1 =
      reaction_diffusion_pass dt diff decay reaction chems nbrs next0 order2 := by
  apply List.ext_get?
  intro j
  simp only [List.get?_eq_getElem?]
  rw [rd_pass_getElem?, rd_pass_getElem?]
  simp only [hperm.mem_iff]

/-- Witness for C3_order_independence: two cells that are mutual
neighbors, processed in the orders [0, 1] and [1, 0]. -/
theorem C3_order_independence_witness :
    ([0, 1] : List ℕ).Perm [1, 0] ∧
    reaction_diffusion_pass 1 defaultDiffusion defaultDecay defaultReaction
        [⟨1, 0, 0, 0⟩, ⟨0, 1, 0, 0⟩] [[1], [0]] [Chem.zero, Chem.zero] [0, 1] =
      reaction_diffusion_pass 1 defaultDiffusion defaultDecay defaultReaction
        [⟨1, 0, 0, 0⟩, ⟨0, 1, 0, 0⟩] [[1], [0]] [Chem.zero, Chem.zero] [1, 0] :=
  ⟨by decide,
   C3_order_independence 1 defaultDiffusion defaultDecay defaultReaction
     [⟨1, 0, 0, 0⟩, ⟨0, 1, 0, 0⟩] [[1], [0]] [Chem.zero, Chem.zero]
     [0, 1] [1, 0] (by decide)⟩

theorem recycleEnts_length (ents : List CellEnt) (polys : List (List Site))
    (adj : ℕ → List ℕ) : (recycleEnts ents polys adj).length = ents.length := by
  simp [recycleEnts]

theorem recycleEnts_getD (ents : List CellEnt) (polys : List (List Site))
    (adj : ℕ → List ℕ) (i : ℕ) (h : i < ents.length) :
    (recycleEnts ents polys adj).getD i default =
      if cellProcessed polys i
      then { ents.getD i default with neighbors := adj i }
      else ents.getD i default := by
  unfold recycleEnts
  rw [List.getD_eq_getElem?_getD, List.getElem?_map, List.getElem?_range h]
  rfl

theorem spawnEnts_all (n : ℕ) (polys : List (List Site)) (adj : ℕ → List ℕ)
    (seed : ℕ → Chem) (ids : ℕ → ℕ)
    (hall : ∀ i, i < n → cellProcessed polys i = true) :
    spawnEnts n polys adj seed ids =
      (List.range n).map (fun i => ⟨ids i, i, seed i, Chem.zero, adj i⟩) := by
  unfold spawnEnts
  rw [List.filter_eq_self.mpr]
  intro a hmem
  exact hall a (List.mem_range.mp hmem)

theorem spawn_mesh_system_eq (st : RebuildState) (freshSites : List Site)
    (polys : List (List Site)) (adjacency : ℕ → List ℕ)
    (seedChem : ℕ → Chem) (freshIds : ℕ → ℕ)
    (hreq : st.rebuildRequested = true) :
    spawn_mesh_system st freshSites (some polys) adjacency seedChem freshIds =
      ⟨syncSites st.sites st.cellCount freshSites, st.cellCount,
       if st.entities.length = st.cellCount
       then recycleEnts st.entities polys adjacency
       else spawnEnts st.cellCount polys adjacency seedChem freshIds,
       false⟩ := by
  unfold spawn_mesh_system
  rw [if_neg (by simp [hreq])]

/-- Claim C4 (counterexample): shrinking from 2 cells to a target of 1
(rebuild requested, a non-degenerate polygon available, fresh random
position (9,9) on offer) leaves the surviving slot at the OLD site
(3,4): on a resize the existing site positions are truncated/kept, not
freshly resampled, so the fresh population is not created "at freshly
sampled random positions". -/
theorem C4_counterexample :
    (spawn_mesh_system
        ⟨[⟨3, 4⟩, ⟨1, 1⟩], 1,
         [⟨7, 0, Chem.zero, Chem.zero, []⟩, ⟨8, 1, Chem.zero, Chem.zero, []⟩],
         true⟩
        [⟨9, 9⟩] (some [[⟨0, 0⟩, ⟨1, 0⟩, ⟨0, 1⟩]]) (fun _ => [])
        (fun _ => Chem.zero) (fun i => 100 + i)).sites = [⟨3, 4⟩]
    ∧ ((⟨3, 4⟩ : Site) ≠ ⟨9, 9⟩)
    ∧ (spawn_mesh_system
        ⟨[⟨3, 4⟩, ⟨1, 1⟩], 1,
         [⟨7, 0, Chem.zero, Chem.zero, []⟩, ⟨8, 1, Chem.zero, Chem.zero, []⟩],
         true⟩
        [⟨9, 9⟩] (some [[⟨0, 0⟩, ⟨1, 0⟩, ⟨0, 1⟩]]) (fun _ => [])
        (fun _ => Chem.zero) (fun i => 100 + i)).entities.length = 1 := by
  refine ⟨by decide, by decide, by decide⟩

/-- Claim C4 (amended): on a rebuild, if the entity count equals the
target site count, every cell's identity, chemical state and
next-chemical buffer are preserved and only its neighbor set (and
mesh) are replaced — for cells whose polygon is non-degenerate;
degenerate cells additionally keep their old neighbors.  If the count
differs, every existing cell is destroyed and a fresh population of
exactly the target size is created (provided each of the first
target-count diagram cells is non-degenerate) with freshly seeded
chemical state and fresh identities; its positions, however, are the
synchronized site list — existing positions are kept, a grow appends
freshly sampled random positions only for the new indices, a shrink
truncates — not a wholesale fresh sample. -/
theorem C4_rebuild_amended (st : RebuildState) (freshSites : List Site)
    (polys : List (List Site)) (adjacency : ℕ → List ℕ)
    (seedChem : ℕ → Chem) (freshIds : ℕ → ℕ)
    (hreq : st.rebuildRequested = true) :
    rebuildContract st freshSites polys adjacency seedChem freshIds := by
  unfold rebuildContract
  rw [spawn_mesh_system_eq st freshSites polys adjacency seedChem freshIds hreq]
  refine ⟨rfl, rfl, ?_, ?_⟩
  · intro hlen
    unfold recyclePreserves
    dsimp only
    rw [if_pos hlen, recycleEnts_length]
    refine ⟨rfl, ?_⟩
    intro i hi
    rw [recycleEnts_getD st.entities polys adjacency i hi]
    by_cases hp : cellProcessed polys i <;> simp [hp]
  · intro hne hall
    unfold freshPopulation
    dsimp only
    rw [if_neg hne, spawnEnts_all st.cellCount polys adjacency seedChem freshIds hall]
    constructor
    · simp
    · intro i hi
      rw [List.getD_eq_getElem?_getD, List.getElem?_map, List.getElem?_range hi]
      rfl

/-- Witness for C4_rebuild_amended: a two-cell state rebuilt with
target count 2 (recycle path) — the contract instance is obtained by
applying the theorem. -/
theorem C4_rebuild_amended_witness :
    (⟨[⟨3, 4⟩, ⟨1, 1⟩], 2,
      [⟨7, 0, Chem.zero, Chem.zero, []⟩, ⟨8, 1, Chem.zero, Chem.zero, []⟩],
      true⟩ : RebuildState).rebuildRequested = true
    ∧ rebuildContract
        ⟨[⟨3, 4⟩, ⟨1, 1⟩], 2,
         [⟨7, 0, Chem.zero, Chem.zero, []⟩, ⟨8, 1, Chem.zero, Chem.zero, []⟩],
         true⟩
        [⟨9, 9⟩] [[⟨0, 0⟩, ⟨1, 0⟩, ⟨0, 1⟩], [⟨0, 0⟩, ⟨1, 0⟩, ⟨0, 1⟩]]
        (fun _ => []) (fun _ => Chem.zero) (fun i => 100 + i) :=
  ⟨rfl, C4_rebuild_amended
    ⟨[⟨3, 4⟩, ⟨1, 1⟩], 2,
     [⟨7, 0, Chem.zero, Chem.zero, []⟩, ⟨8, 1, Chem.zero, Chem.zero, []⟩],
     true⟩
    [⟨9, 9⟩] [[⟨0, 0⟩, ⟨1, 0⟩, ⟨0, 1⟩], [⟨0, 0⟩, ⟨1, 0⟩, ⟨0, 1⟩]]
    (fun _ => []) (fun _ => Chem.zero) (fun i => 100 + i) rfl⟩

/-- Claim C10 (counterexample): with 2 cells, triangle (0,1,2) and a
degenerate second polygon, the rebuild's spawn loop skips cell 1, so
the cell map of the same rebuild ends up with a single slot while the
surviving cell's neighbor set still contains index 1 (< cell_count):
that neighbor index is below the cell count yet addresses no live slot
of the cell map of the same rebuild. -/
theorem C10_counterexample :
    inAdjacency [(0, 1, 2)] 2 0 1 = true
    ∧ (spawn_mesh_system ⟨[⟨0, 0⟩, ⟨1, 1⟩], 2, [], true⟩ []
        (some [[⟨0, 0⟩, ⟨1, 0⟩, ⟨0, 1⟩], []])
        (fun u => (List.range 2).filter (fun v => inAdjacency [(0, 1, 2)] 2 u v))
        (fun _ => Chem.zero) (fun i => i)).entities.length = 1
    ∧ ((spawn_mesh_system ⟨[⟨0, 0⟩, ⟨1, 1⟩], 2, [], true⟩ []
        (some [[⟨0, 0⟩, ⟨1, 0⟩, ⟨0, 1⟩], []])
        (fun u => (List.range 2).filter (fun v => inAdjacency [(0, 1, 2)] 2 u v))
        (fun _ => Chem.zero) (fun i => i)).entities.getD 0 default).neighbors = [1]
    ∧ (spawn_mesh_system ⟨[⟨0, 0⟩, ⟨1, 1⟩], 2, [], true⟩ []
        (some [[⟨0, 0⟩, ⟨1, 0⟩, ⟨0, 1⟩], []])
        (fun u => (List.range 2).filter (fun v => inAdjacency [(0, 1, 2)] 2 u v))
        (fun _ => Chem.zero) (fun i => i)).entities.get? 1 = none :=
  ⟨by decide, by decide, by decide, by decide⟩

/-- Claim C10 (amended): every index inserted into a neighbor set by
the rebuild derivation is strictly below the cell count and differs
from the cell it was inserted for (and the cell itself is a real
index); such an index addresses a live slot of the cell map of the
same rebuild provided the rebuild recycles (entity count equal to the
target) or spawns with no degenerate polygon among the first
cell_count diagram cells — when the spawn path skips a degenerate cell
the map is shorter than the cell count and a neighbor index may
address no slot. -/
theorem C10_live_slot_amended (tris : List (ℕ × ℕ × ℕ)) (N u v : ℕ)
    (hN : 0 < N) (h : inAdjacency tris N u v = true) :
    (v < N ∧ v ≠ u ∧ u < N) ∧ liveSlotOK N v := by
  have hb : v < N ∧ v ≠ u ∧ u < N := inAdjacency_bounds tris N u v hN h
  refine ⟨hb, ?_⟩
  intro st freshSites polys adjacency seedChem freshIds hreq hcount hok
  rw [spawn_mesh_system_eq st freshSites polys adjacency seedChem freshIds hreq]
  dsimp only
  rw [List.get?_eq_getElem?]
  by_cases hlen : st.entities.length = st.cellCount
  · rw [if_pos hlen]
    have hv : v < (recycleEnts st.entities polys adjacency).length := by
      rw [recycleEnts_length, hlen, hcount]
      exact hb.1
    rw [List.getElem?_eq_getElem hv]
    rfl
  · rw [if_neg hlen]
    have hall := hok.resolve_left hlen
    rw [spawnEnts_all st.cellCount polys adjacency seedChem freshIds hall]
    have hv : v < ((List.range st.cellCount).map
        (fun i => (⟨freshIds i, i, seedChem i, Chem.zero, adjacency i⟩ : CellEnt))).length := by
      simp only [List.length_map, List.length_range, hcount]
      exact hb.1
    rw [List.getElem?_eq_getElem hv]
    rfl

/-- Witness for C10_live_slot_amended on the all-real triangle (0,1,2)
with three cells. -/
theorem C10_live_slot_amended_witness :
    0 < 3 ∧ inAdjacency [(0, 1, 2)] 3 0 1 = true
    ∧ ((1 < 3 ∧ 1 ≠ 0 ∧ 0 < 3) ∧ liveSlotOK 3 1) :=
  ⟨by decide, by decide,
   C10_live_slot_amended [(0, 1, 2)] 3 0 1 (by decide) (by decide)⟩

end Vivarium
